import Mathlib

/-!
# Verification of the Waltero-to-MQTT bridge

Shallow embedding of the two source files
`API_To_Broker_Statuses.py` and
`Sensordata_Device_searchingForName_newTopic.py` (class `WalteroAPI`),
together with proofs about device discovery, pagination, bulk status
fetching, and MQTT publishing.

HTTP traffic is modelled by passing the server's responses as explicit
arguments (a response of `Option _` with `none` standing for a transport
error, i.e. a `requests.exceptions.RequestException`).  Publishing is
modelled by returning the list of `(topic, payload)` pairs handed to
`mqtt_client.publish`, in order.
-/

namespace AstellasSensor

/-! ## Python string primitives

The sources use `str.strip()`, `str.replace(old, "")`, the substring
test `"Astellas" in name`, and truthiness of optional strings.  These
are modelled on `List Char` so that they compute by kernel reduction. -/

/-- Python `str.strip()` on the character list: drop whitespace from
both ends. -/
def pyStripList (l : List Char) : List Char :=
  ((l.dropWhile Char.isWhitespace).reverse.dropWhile Char.isWhitespace).reverse

/-- Python `str.strip()`. -/
def pyStrip (s : String) : String :=
  String.mk (pyStripList s.data)

/-- One fuel-indexed pass of Python `str.replace(pat, "")`: scan left to
right, deleting each non-overlapping occurrence of `pat`.  The fuel is
an upper bound on the number of steps; `removeAll` supplies the length
of the subject, which suffices for non-empty patterns. -/
def removeAllAux (pat : List Char) : Nat → List Char → List Char
  | _, [] => []
  | 0, l => l
  | Nat.succ fuel, c :: cs =>
    if pat.isPrefixOf (c :: cs) then removeAllAux pat fuel ((c :: cs).drop pat.length)
    else c :: removeAllAux pat fuel cs

/-- Python `s.replace(pat, "")` for a non-empty pattern. -/
def removeAll (s pat : String) : String :=
  String.mk (removeAllAux pat.data s.data.length s.data)

/-- Python substring test `pat in s` on character lists. -/
def containsSub (pat : List Char) : List Char → Bool
  | [] => pat.isEmpty
  | c :: cs => pat.isPrefixOf (c :: cs) || containsSub pat cs

/-- Python `"Astellas" in name`. -/
def containsMarker (name : String) : Bool :=
  containsSub "Astellas".data name.data

/-- Python truthiness of a string: `bool(s)` is `s ≠ ""`. -/
def pyTruthyStr (s : String) : Bool :=
  decide (s ≠ "")

/-- Python truthiness of an optional string field (`None` and `""` are
falsy). -/
def pyTruthyOpt (o : Option String) : Bool :=
  pyTruthyStr (o.getD "")

/-! ## Login (`WalteroAPI.login`, lines 29-46 of both sources)

The HTTP layer is abstracted to the decoded JSON body of a successful
response.  The method stores `data.get("AccessToken")` and
`data.get("MachineId")` into the session *before* validating them, and
returns `None` when either is missing or empty. -/

/-- The decoded JSON body of a 2xx login response. -/
structure LoginResponse where
  accessToken : Option String
  machineId : Option String
deriving DecidableEq

/-- The credential fields of the `WalteroAPI` object. -/
structure SessionState where
  access_token : Option String
  machine_id : Option String
deriving DecidableEq

/-- Model of `WalteroAPI.login`, given a 2xx response body: returns the value the
Python method returns (`None` or the data) together with the updated
credential fields. -/
def login (data : LoginResponse) (_st : SessionState) :
    Option LoginResponse × SessionState :=
  let st2 : SessionState :=
    { access_token := data.accessToken, machine_id := data.machineId }
  if pyTruthyOpt st2.access_token && pyTruthyOpt st2.machine_id then
    (some data, st2)
  else
    (Option.none, st2)

/-! ## Organization resolution (`WalteroAPI.get_organizations`, lines 50-64) -/

/-- One entry of the `Results` list of the organizations response. -/
structure Org where
  name : Option String
  id : Option String
deriving DecidableEq

/-- The `for org in ... Results` loop of `get_organizations`: starting
from the current `organization_id`, store the id of the first entry
whose stripped name equals the stripped requested name (the requested
name must be truthy), and `break`. -/
def get_organizations : Option String → List Org → Option String → Option String
  | _, [], cur => cur
  | org_name, org :: rest, cur =>
    if pyTruthyOpt org_name && (pyStrip (org.name.getD "") == pyStrip (org_name.getD "")) then
      org.id
    else
      get_organizations org_name rest cur

/-! ## Device catalog (`WalteroAPI.get_devices`, lines 66-136) -/

/-- One entry of a devices page (`device.get("id")`, `.get("name")`,
`.get("externalmeterid")`). -/
structure Device where
  id : Option String
  name : Option String
  externalmeterid : Option String
deriving DecidableEq

/-- One record of `self.devices_info`. -/
structure DeviceInfo where
  id : Option String
  area : String
  external : String
deriving DecidableEq

/-- The per-device body of the page loop (lines 106-118): strip the
name, keep the device iff the stripped name contains `"Astellas"`, and
derive the area as `name.replace("Astellas", "").strip() or "Unknown"`. -/
def procDevice (device : Device) : Option DeviceInfo :=
  let name := pyStrip (device.name.getD "")
  let external := pyStrip (device.externalmeterid.getD "")
  if containsMarker name then
    let stripped := pyStrip (removeAll name "Astellas")
    let area_name := if stripped = "" then "Unknown" else stripped
    some { id := device.id, area := area_name, external := external }
  else
    Option.none

/-- The `for device in results` loop over one page. -/
def processPage (results : List Device) : List DeviceInfo :=
  results.filterMap procDevice

/-- The `Results` field of a devices page: a JSON list, or something
that is not a list (line 99's `isinstance` guard); an absent field
defaults to the empty list. -/
inductive ResultsField where
  | ok (devices : List Device)
  | malformed
deriving DecidableEq

/-- The `PageCount` field of a devices page: an integer, absent
(`None`), or some other JSON value (neither stop condition applies). -/
inductive PageCountField where
  | int (n : Int)
  | null
  | other
deriving DecidableEq

/-- The decoded JSON body of one devices page. -/
structure DevicesPage where
  results : ResultsField
  pageCount : PageCountField
deriving DecidableEq

/-- The `while True` pagination loop of `get_devices` (lines 79-129).
`pages i` is the server's response to the request for page `i`; the
loop returns the accumulated `devices_info` together with the number of
page requests issued, or `none` if the fuel is exhausted before the
loop stops. -/
def getDevicesLoop (pages : Nat → DevicesPage) (page_size : Nat) :
    Nat → Nat → List DeviceInfo → Option (List DeviceInfo × Nat)
  | 0, _, _ => Option.none
  | Nat.succ fuel, current_page, acc =>
    let payload := pages current_page
    match payload.results with
    | ResultsField.malformed => some (acc, 1)
    | ResultsField.ok [] => some (acc, 1)
    | ResultsField.ok (d :: ds) =>
      let acc2 := acc ++ processPage (d :: ds)
      match payload.pageCount with
      | PageCountField.int pc =>
        if (current_page : Int) ≥ pc then some (acc2, 1)
        else
          match getDevicesLoop pages page_size fuel (current_page + 1) acc2 with
          | Option.none => Option.none
          | some (r, n) => some (r, n + 1)
      | PageCountField.null =>
        if (d :: ds).length < page_size then some (acc2, 1)
        else
          match getDevicesLoop pages page_size fuel (current_page + 1) acc2 with
          | Option.none => Option.none
          | some (r, n) => some (r, n + 1)
      | PageCountField.other =>
        match getDevicesLoop pages page_size fuel (current_page + 1) acc2 with
        | Option.none => Option.none
        | some (r, n) => some (r, n + 1)

/-- Model of `WalteroAPI.get_devices`: refuses to run (leaving `devices_info`
unchanged and issuing zero page requests) when `organization_id` is
falsy; otherwise resets the catalog and runs the pagination loop from
page 1. -/
def get_devices (organization_id : Option String) (pages : Nat → DevicesPage)
    (page_size : Nat) (fuel : Nat) (devices_info : List DeviceInfo) :
    Option (List DeviceInfo × Nat) :=
  if pyTruthyOpt organization_id then
    getDevicesLoop pages page_size fuel 1 []
  else
    some (devices_info, 0)

/-- Ceiling division on naturals, `⌈a / b⌉`. -/
def ceilNat (a b : Nat) : Nat :=
  (a + b - 1) / b

/-- An honest paging server over a fixed device list `L`: page `i`
(1-based) returns the `i`-th slice of `L` of size `ps`, with a fixed
`PageCount` field on every page. -/
def honestPages (L : List Device) (ps : Nat) (pc : PageCountField) : Nat → DevicesPage :=
  fun i => { results := ResultsField.ok ((L.drop ((i - 1) * ps)).take ps), pageCount := pc }

/-! ## Bulk status fetch (`WalteroAPI.get_device_statuses`, lines 138-182) -/

/-- A JSON scalar as it appears in a status entry's value fields. -/
inductive JVal where
  | null
  | bool (b : Bool)
  | num (n : Int)
  | str (s : String)
deriving DecidableEq

/-- One entry of a bulk status response, with the keys the publisher
reads (`entry.get(k)` returning `none` when `k` is absent). -/
structure StatusEntry where
  deviceid : Option String
  device_id : Option String
  id : Option String
  isconnected : Option JVal
  lastValue : Option JVal
  usage24hrs : Option JVal
  lastTimestamp : Option JVal
deriving DecidableEq

/-- A JSON value sitting under one of the keys `Results` / `results` /
`data` of a dict-shaped bulk response: either a list of entries or a
non-list value whose only relevant property is its truthiness. -/
inductive JStat where
  | jlist (xs : List StatusEntry)
  | jother (truthy : Bool)
deriving DecidableEq

/-- Python truthiness of a `JStat` (a list is truthy iff non-empty). -/
def jTruthy : JStat → Bool
  | JStat.jlist xs => !xs.isEmpty
  | JStat.jother t => t

/-- Python's `a or b or ... or []` chain over optional values: the
first present-and-truthy value, if any. -/
def orChain : List (Option JStat) → Option JStat
  | [] => Option.none
  | Option.none :: rest => orChain rest
  | some v :: rest => if jTruthy v then some v else orChain rest

/-- The decoded JSON body of one bulk status response, as the
normalization at lines 163-174 distinguishes shapes: a list, a dict
(with the three probed keys), a truthy non-list non-dict value, or a
falsy value (turned into `[]` by `response.json() or []`). -/
inductive BulkData where
  | top_list (xs : List StatusEntry)
  | top_dict (resultsU resultsL dataK : Option JStat)
  | top_other
  | top_falsy
deriving DecidableEq

/-- Lines 163-174: normalize a bulk response body to a list of status
entries. -/
def normalizeStatuses : BulkData → List StatusEntry
  | BulkData.top_list xs => xs
  | BulkData.top_dict r1 r2 r3 =>
    match orChain [r1, r2, r3] with
    | some (JStat.jlist xs) => xs
    | _ => []
  | BulkData.top_other => []
  | BulkData.top_falsy => []

/-- One element of a chunk's POST body: `{"deviceid": did}`. -/
structure BodyItem where
  deviceid : String
deriving DecidableEq

/-- Line 160: `[{"deviceid": did} for did in group]`. -/
def mkBody (group : List String) : List BodyItem :=
  group.map BodyItem.mk

/-- The `chunks` generator (lines 153-155), fuel-indexed so that it
computes by structural recursion; `fuel ≥ seq.length` suffices for any
positive `size`. -/
def chunksAux (size : Nat) : Nat → List String → List (List String)
  | _, [] => []
  | 0, l => [l]
  | Nat.succ fuel, l => l.take size :: chunksAux size fuel (l.drop size)

/-- Python `chunks(seq, size)`: consecutive slices of `seq` of length `size`
(last one possibly shorter). -/
def chunks (seq : List String) (size : Nat) : List (List String) :=
  chunksAux size seq.length seq

/-- Line 147: `[d.get("id") for d in self.devices_info if d.get("id")]`. -/
def collectIds (devices_info : List DeviceInfo) : List String :=
  devices_info.filterMap fun d =>
    match d.id with
    | some s => if pyTruthyStr s then some s else Option.none
    | Option.none => Option.none

/-- The `for group in chunks(...)` loop inside the `try` block (lines
158-179).  `server body` is the (normalized-input) JSON of the POST
response for that body, `none` standing for a transport error.  Returns
the list the method returns together with the number of POST requests
issued.  On the first failing chunk the whole accumulator is discarded
and `[]` is returned. -/
def runBulkFetch (server : List BodyItem → Option BulkData) :
    List (List String) → List StatusEntry → List StatusEntry × Nat
  | [], acc => (acc, 0)
  | g :: gs, acc =>
    match server (mkBody g) with
    | Option.none => ([], 1)
    | some data =>
      let r := runBulkFetch server gs (acc ++ normalizeStatuses data)
      (r.1, r.2 + 1)

/-- Model of `WalteroAPI.get_device_statuses`: collect truthy device ids from the
catalog, return `[]` on an empty id list, otherwise run the chunked
fetch.  The second component counts the POST requests issued. -/
def get_device_statuses (server : List BodyItem → Option BulkData)
    (devices_info : List DeviceInfo) (batch_size : Nat) :
    List StatusEntry × Nat :=
  let device_ids := collectIds devices_info
  if device_ids.isEmpty then ([], 0)
  else runBulkFetch server (chunks device_ids batch_size) []

/-! ## Publishing (`publish_statuses_to_mqtt`, lines 184-219, and
`publish_to_mqtt`, lines 164-165 of the windowed variant) -/

/-- The transformed payload built at lines 200-206 (absent source keys
become JSON `null`). -/
structure StatusPayload where
  device_id : String
  is_connected : JVal
  last_value : JVal
  usage_daily : JVal
  last_timestamp : JVal
deriving DecidableEq

/-- Python's `a or b or c` over optional strings followed by the
`if not device_id: continue` guard: the first truthy value, if any. -/
def firstTruthyStr : List (Option String) → Option String
  | [] => Option.none
  | Option.none :: rest => firstTruthyStr rest
  | some s :: rest => if pyTruthyStr s then some s else firstTruthyStr rest

/-- Line 192: `entry.get("deviceid") or entry.get("device_id") or
entry.get("id")`, combined with the line 193 truthiness guard. -/
def extractId (e : StatusEntry) : Option String :=
  firstTruthyStr [e.deviceid, e.device_id, e.id]

/-- Line 197: `f"Astellas/Statuses/{device_id}"`. -/
def statusesTopic (device_id : String) : String :=
  "Astellas/Statuses/" ++ device_id

/-- Model of `WalteroAPI.publish_statuses_to_mqtt`: the ordered list of
`(topic, payload)` pairs handed to `mqtt_client.publish`.  Entries with
no truthy id among `deviceid` / `device_id` / `id` are skipped. -/
def publish_statuses_to_mqtt (statuses : List StatusEntry) :
    List (String × StatusPayload) :=
  statuses.filterMap fun entry =>
    match extractId entry with
    | Option.none => Option.none
    | some device_id =>
      some (statusesTopic device_id,
        { device_id := device_id
          is_connected := (entry.isconnected).getD JVal.null
          last_value := (entry.lastValue).getD JVal.null
          usage_daily := (entry.usage24hrs).getD JVal.null
          last_timestamp := (entry.lastTimestamp).getD JVal.null })

/-- Line 165 of the windowed variant:
`f"Astellas/{area}/{external or 'unknown'}"`. -/
def windowedTopic (area external : String) : String :=
  "Astellas/" ++ area ++ "/" ++ (if external = "" then "unknown" else external)

/-- The two fetch/publish strategies of the repository. -/
inductive FetchMode where
  | bulk
  | windowed
deriving DecidableEq

/-- Modelled from the spec: topic derivation as a pure function of
`(mode, deviceId, area, externalId)` — bulk mode publishes to
`Astellas/Statuses/<deviceId>`, windowed mode to
`Astellas/<area>/<externalId-or-unknown>`. -/
def deriveTopic (mode : FetchMode) (deviceId area externalId : String) : String :=
  match mode with
  | FetchMode.bulk => "Astellas/Statuses/" ++ deviceId
  | FetchMode.windowed =>
    "Astellas/" ++ area ++ "/" ++ (if externalId = "" then "unknown" else externalId)

/-- Spec-side area derivation: the device name with the marker
`"Astellas"` removed and whitespace-trimmed, or the sentinel
`"Unknown"` when that result is empty. -/
def areaSpec (name : String) : String :=
  let r := pyStrip (removeAll name "Astellas")
  if r = "" then "Unknown" else r

/-! ## Helper lemmas -/

theorem ceilNat_zero (B : Nat) : ceilNat 0 B = 0 := by
  unfold ceilNat
  cases B with
  | zero => rfl
  | succ b => exact Nat.div_eq_of_lt (by omega)

theorem ceilNat_rec (n B : Nat) (hB : 0 < B) (hn : 0 < n) :
    ceilNat n B = ceilNat (n - B) B + 1 := by
  unfold ceilNat
  rcases le_or_lt n B with h | h
  · have h1 : n - B = 0 := by omega
    have h3 : (n + B - 1) / B = 1 := by
      have h4 : n + B - 1 = (n - 1) + B := by omega
      rw [h4, Nat.add_div_right _ hB, Nat.div_eq_of_lt (by omega)]
    have h5 : (B - 1) / B = 0 := Nat.div_eq_of_lt (by omega)
    rw [h1, h3]
    have h6 : 0 + B - 1 = B - 1 := by omega
    rw [h6, h5]
  · have h4 : n + B - 1 = (n - 1) + B := by omega
    have h5 : (n - B) + B - 1 = (n - B - 1) + B := by omega
    rw [h4, h5, Nat.add_div_right _ hB, Nat.add_div_right _ hB]
    have h6 : (n - 1) / B = (n - 1 - B) / B + 1 := Nat.div_eq_sub_div hB (by omega)
    have h7 : n - 1 - B = n - B - 1 := by omega
    rw [h6, h7]

theorem chunksAux_flatten (B : Nat) (hB : 0 < B) :
    ∀ (fuel : Nat) (l : List String), l.length ≤ fuel →
      (chunksAux B fuel l).flatten = l := by
  intro fuel
  induction fuel with
  | zero =>
    intro l hl
    have h : l = [] := List.eq_nil_of_length_eq_zero (by omega)
    subst h; rfl
  | succ fuel ih =>
    intro l hl
    cases l with
    | nil => rfl
    | cons c cs =>
      show ((c :: cs).take B :: chunksAux B fuel ((c :: cs).drop B)).flatten = c :: cs
      rw [List.flatten_cons, ih ((c :: cs).drop B)
        (by rw [List.length_drop]; simp only [List.length_cons] at hl ⊢; omega)]
      exact List.take_append_drop B (c :: cs)

theorem chunksAux_length (B : Nat) (hB : 0 < B) :
    ∀ (fuel : Nat) (l : List String), l.length ≤ fuel →
      (chunksAux B fuel l).length = ceilNat l.length B := by
  intro fuel
  induction fuel with
  | zero =>
    intro l hl
    have h : l = [] := List.eq_nil_of_length_eq_zero (by omega)
    subst h
    simp [chunksAux, ceilNat_zero]
  | succ fuel ih =>
    intro l hl
    cases l with
    | nil => simp [chunksAux, ceilNat_zero]
    | cons c cs =>
      have hrec := ih ((c :: cs).drop B)
        (by rw [List.length_drop]; simp only [List.length_cons] at hl ⊢; omega)
      show ((c :: cs).take B :: chunksAux B fuel ((c :: cs).drop B)).length = _
      rw [List.length_cons, hrec, List.length_drop,
        ceilNat_rec (c :: cs).length B hB (by simp)]

theorem chunksAux_mem (B : Nat) (hB : 0 < B) :
    ∀ (fuel : Nat) (l c : List String), l.length ≤ fuel → c ∈ chunksAux B fuel l →
      c.length ≤ B ∧ c ≠ [] := by
  intro fuel
  induction fuel with
  | zero =>
    intro l c hl hc
    have h : l = [] := List.eq_nil_of_length_eq_zero (by omega)
    subst h; simp [chunksAux] at hc
  | succ fuel ih =>
    intro l c hl hc
    cases l with
    | nil => simp [chunksAux] at hc
    | cons x xs =>
      have hc2 : c ∈ (x :: xs).take B :: chunksAux B fuel ((x :: xs).drop B) := hc
      rcases List.mem_cons.mp hc2 with h | h
      · subst h
        refine ⟨by rw [List.length_take]; exact Nat.min_le_left _ _, ?_⟩
        cases B with
        | zero => omega
        | succ b => simp [List.take_succ_cons]
      · exact ih ((x :: xs).drop B) c
          (by rw [List.length_drop]; simp only [List.length_cons] at hl ⊢; omega) h

theorem runBulkFetch_ok (f : List BodyItem → BulkData) :
    ∀ (gs : List (List String)) (acc : List StatusEntry),
      runBulkFetch (fun b => some (f b)) gs acc
        = (acc ++ (gs.map (fun g => normalizeStatuses (f (mkBody g)))).flatten, gs.length) := by
  intro gs
  induction gs with
  | nil => intro acc; simp [runBulkFetch]
  | cons g gs ih =>
    intro acc
    simp only [runBulkFetch, ih, List.map_cons, List.flatten_cons, List.length_cons,
      List.append_assoc]

theorem runBulkFetch_err (server : List BodyItem → Option BulkData) :
    ∀ (gs : List (List String)) (acc : List StatusEntry),
      (∃ g ∈ gs, server (mkBody g) = Option.none) →
      (runBulkFetch server gs acc).1 = [] := by
  intro gs
  induction gs with
  | nil =>
    intro acc h
    rcases h with ⟨g, hg, _⟩
    simp at hg
  | cons g gs ih =>
    intro acc h
    cases hs : server (mkBody g) with
    | none => simp [runBulkFetch, hs]
    | some data =>
      rcases h with ⟨g', hg', hnone⟩
      rcases List.mem_cons.mp hg' with heq | hmem
      · subst heq; rw [hs] at hnone; exact absurd hnone (by simp)
      · simp only [runBulkFetch, hs]
        exact ih (acc ++ normalizeStatuses data) ⟨g', hmem, hnone⟩

theorem loop_int_bound (pages : Nat → DevicesPage) (ps : Nat) (Pc : Nat)
    (hp : ∀ i, (pages i).pageCount = PageCountField.int (Pc : Int)) :
    ∀ (fuel cur : Nat) (acc : List DeviceInfo), max 1 (Pc + 1 - cur) ≤ fuel →
      ∃ res n, getDevicesLoop pages ps fuel cur acc = some (res, n)
        ∧ n ≤ max 1 (Pc + 1 - cur) := by
  intro fuel
  induction fuel with
  | zero =>
    intro cur acc h
    exact absurd h (by omega)
  | succ fuel ih =>
    intro cur acc h
    cases hres : (pages cur).results with
    | malformed => exact ⟨acc, 1, by simp [getDevicesLoop, hres], by omega⟩
    | ok l =>
      cases l with
      | nil => exact ⟨acc, 1, by simp [getDevicesLoop, hres], by omega⟩
      | cons d ds =>
        by_cases hge : (cur : Int) ≥ (Pc : Int)
        · exact ⟨acc ++ processPage (d :: ds), 1,
            by simp [getDevicesLoop, hres, hp cur, hge], by omega⟩
        · obtain ⟨res, n, heq, hn⟩ :=
            ih (cur + 1) (acc ++ processPage (d :: ds)) (by omega)
          exact ⟨res, n + 1,
            by simp [getDevicesLoop, hres, hp cur, hge, heq], by omega⟩

theorem loop_null_bound (ps : Nat) (hps : 0 < ps) (pages : Nat → DevicesPage) :
    ∀ (fuel : Nat) (R : List Device) (cur : Nat) (acc : List DeviceInfo),
      (∀ j, pages (cur + j)
          = { results := ResultsField.ok ((R.drop (j * ps)).take ps),
              pageCount := PageCountField.null }) →
      R.length / ps + 1 ≤ fuel →
      ∃ res n, getDevicesLoop pages ps fuel cur acc = some (res, n)
        ∧ n ≤ R.length / ps + 1 := by
  intro fuel
  induction fuel with
  | zero =>
    intro R cur acc hp h
    exact absurd h (Nat.not_succ_le_zero _)
  | succ fuel ih =>
    intro R cur acc hp h
    have h0 : pages cur
        = { results := ResultsField.ok (R.take ps), pageCount := PageCountField.null } := by
      simpa using hp 0
    cases R with
    | nil =>
      have hres : (pages cur).results = ResultsField.ok ([] : List Device) := by
        rw [h0]
        simp
      exact ⟨acc, 1, by simp [getDevicesLoop, hres], Nat.le_add_left 1 _⟩
    | cons r rs =>
      obtain ⟨ps', rfl⟩ : ∃ ps', ps = ps' + 1 := ⟨ps - 1, by omega⟩
      have hres : (pages cur).results = ResultsField.ok (r :: rs.take ps') := by
        rw [h0]
        simp [List.take_succ_cons]
      have hpc : (pages cur).pageCount = PageCountField.null := by
        rw [h0]
      by_cases hsmall : (r :: rs.take ps').length < ps' + 1
      · refine ⟨acc ++ processPage (r :: rs.take ps'), 1, ?_, Nat.le_add_left 1 _⟩
        simp only [getDevicesLoop, hres, hpc]
        rw [if_pos hsmall]
      · have hlenrs : ps' ≤ rs.length := by
          simp only [List.length_cons, List.length_take] at hsmall
          omega
        have hstep : (r :: rs).length / (ps' + 1)
            = (rs.length - ps') / (ps' + 1) + 1 := by
          have h1 := Nat.div_eq_sub_div (Nat.succ_pos ps')
            (show ps' + 1 ≤ (r :: rs).length by simp only [List.length_cons]; omega)
          have h2 : (r :: rs).length - (ps' + 1) = rs.length - ps' := by
            simp only [List.length_cons]; omega
          rw [h2] at h1
          exact h1
        have hp' : ∀ j, pages (cur + 1 + j)
            = { results := ResultsField.ok
                  (((rs.drop ps').drop (j * (ps' + 1))).take (ps' + 1)),
                pageCount := PageCountField.null } := by
          intro j
          have e3 : cur + 1 + j = cur + (j + 1) := by omega
          have e4 : (r :: rs).drop ((j + 1) * (ps' + 1))
              = (rs.drop ps').drop (j * (ps' + 1)) := by
            rw [List.drop_drop]
            rw [show (j + 1) * (ps' + 1) = (ps' + j * (ps' + 1)) + 1 from by ring]
            rfl
          rw [e3, hp (j + 1), e4]
        have hdroplen : (rs.drop ps').length = rs.length - ps' := List.length_drop ps' rs
        obtain ⟨res, n, heq, hn⟩ :=
          ih (rs.drop ps') (cur + 1) (acc ++ processPage (r :: rs.take ps')) hp'
            (by rw [hdroplen]; omega)
        rw [hdroplen] at hn
        refine ⟨res, n + 1, ?_, by omega⟩
        simp only [getDevicesLoop, hres, hpc]
        rw [if_neg hsmall, heq]

theorem loop_term_small (ps : Nat) (pages : Nat → DevicesPage)
    (hnull : ∀ i, (pages i).pageCount = PageCountField.null) (k : Nat)
    (hk : (pages k).results = ResultsField.malformed
        ∨ ∃ l, (pages k).results = ResultsField.ok l ∧ l.length < ps) :
    ∀ (fuel cur : Nat) (acc : List DeviceInfo), cur ≤ k → k + 1 - cur ≤ fuel →
      ∃ res n, getDevicesLoop pages ps fuel cur acc = some (res, n) := by
  intro fuel
  induction fuel with
  | zero =>
    intro cur acc hc hf
    exact absurd hf (by omega)
  | succ fuel ih =>
    intro cur acc hc hf
    cases hres : (pages cur).results with
    | malformed => exact ⟨acc, 1, by simp [getDevicesLoop, hres]⟩
    | ok l =>
      cases l with
      | nil => exact ⟨acc, 1, by simp [getDevicesLoop, hres]⟩
      | cons d ds =>
        by_cases hsmall : (d :: ds).length < ps
        · refine ⟨acc ++ processPage (d :: ds), 1, ?_⟩
          simp only [getDevicesLoop, hres, hnull cur]
          rw [if_pos hsmall]
        · have hne : cur ≠ k := by
            intro he
            subst he
            rcases hk with h1 | ⟨l, h1, h2⟩
            · rw [hres] at h1
              exact ResultsField.noConfusion h1
            · rw [hres] at h1
              injection h1 with h3
              subst h3
              exact hsmall h2
          obtain ⟨res, n, heq⟩ :=
            ih (cur + 1) (acc ++ processPage (d :: ds)) (by omega) (by omega)
          refine ⟨res, n + 1, ?_⟩
          simp only [getDevicesLoop, hres, hnull cur]
          rw [if_neg hsmall, heq]

/-! ## Claims -/

/-- C1: for every device whose stripped name contains the tenant marker
`"Astellas"`, device discovery produces a record whose area equals the
name with the marker removed and whitespace-trimmed, defaulting to the
sentinel `"Unknown"` when that result is empty (`areaSpec`). -/
theorem derived_area_matches_spec (device : Device)
    (h : containsMarker (pyStrip (device.name.getD "")) = true) :
    procDevice device = some
      { id := device.id
        area := areaSpec (pyStrip (device.name.getD ""))
        external := pyStrip (device.externalmeterid.getD "") } := by
  simp only [procDevice, areaSpec, h, if_true]

/-- Witness for C1 at the concrete device name `" Astellas Lab1 "`. -/
theorem derived_area_matches_spec_witness :
    containsMarker (pyStrip ((some " Astellas Lab1 " : Option String).getD "")) = true
    ∧ procDevice { id := some "d1", name := some " Astellas Lab1 ", externalmeterid := some "E1" }
        = some { id := some "d1", area := "Lab1", external := "E1" } :=
  ⟨by decide,
    derived_area_matches_spec
      { id := some "d1", name := some " Astellas Lab1 ", externalmeterid := some "E1" }
      (by decide)⟩

/-- C2: a device whose stripped name does not contain the marker
contributes no record to the catalog: processing it yields nothing and
removing it from a page leaves the page's catalog contribution
unchanged. -/
theorem device_without_marker_excluded (device : Device) (pre post : List Device)
    (h : containsMarker (pyStrip (device.name.getD "")) = false) :
    procDevice device = Option.none
    ∧ processPage (pre ++ device :: post) = processPage pre ++ processPage post := by
  have h1 : procDevice device = Option.none := by
    simp only [procDevice, h]
    rfl
  exact ⟨h1, by simp [processPage, List.filterMap_append, List.filterMap_cons, h1]⟩

/-- Witness for C2 at the concrete device name `"OtherCo Lab2"`. -/
theorem device_without_marker_excluded_witness :
    containsMarker (pyStrip ((some "OtherCo Lab2" : Option String).getD "")) = false
    ∧ procDevice { id := some "d2", name := some "OtherCo Lab2", externalmeterid := Option.none }
        = Option.none :=
  ⟨by decide,
    (device_without_marker_excluded
      { id := some "d2", name := some "OtherCo Lab2", externalmeterid := Option.none }
      [] [] (by decide)).1⟩

/-- C3: with batch size `B > 0` and a server that answers every chunk,
the bulk fetch issues exactly `⌈N/B⌉` POST requests for the `N`
collected device ids; the chunks are consecutive slices of at most `B`
ids covering the id list in order, and the returned list is the
concatenation of the per-chunk (normalized) results in chunk order. -/
theorem bulk_fetch_chunking (devices_info : List DeviceInfo) (B : Nat) (hB : 0 < B)
    (f : List BodyItem → BulkData) :
    (get_device_statuses (fun b => some (f b)) devices_info B).2
        = ceilNat (collectIds devices_info).length B
    ∧ (chunks (collectIds devices_info) B).flatten = collectIds devices_info
    ∧ (∀ c ∈ chunks (collectIds devices_info) B, c.length ≤ B ∧ c ≠ [])
    ∧ (get_device_statuses (fun b => some (f b)) devices_info B).1
        = ((chunks (collectIds devices_info) B).map
            (fun g => normalizeStatuses (f (mkBody g)))).flatten := by
  have hflat := chunksAux_flatten B hB (collectIds devices_info).length
    (collectIds devices_info) (Nat.le_refl _)
  have hlen := chunksAux_length B hB (collectIds devices_info).length
    (collectIds devices_info) (Nat.le_refl _)
  have hmem := fun c => chunksAux_mem B hB (collectIds devices_info).length
    (collectIds devices_info) c (Nat.le_refl _)
  have hge : get_device_statuses (fun b => some (f b)) devices_info B
      = runBulkFetch (fun b => some (f b)) (chunks (collectIds devices_info) B) [] := by
    cases hids : collectIds devices_info with
    | nil => simp [get_device_statuses, hids, chunks, chunksAux, runBulkFetch]
    | cons i ids => simp [get_device_statuses, hids]
  have hrun := runBulkFetch_ok f (chunks (collectIds devices_info) B) []
  refine ⟨?_, hflat, fun c hc => hmem c hc, ?_⟩
  · rw [hge, hrun]
    exact hlen
  · rw [hge, hrun]
    simp

/-- Witness for C3: three device ids, batch size 2, a server returning
empty bodies. -/
theorem bulk_fetch_chunking_witness :
    (get_device_statuses (fun _ => some BulkData.top_falsy)
        [{ id := some "a", area := "A", external := "" },
         { id := some "b", area := "B", external := "" },
         { id := some "c", area := "C", external := "" }] 2).2 = 2 :=
  (bulk_fetch_chunking
    [{ id := some "a", area := "A", external := "" },
     { id := some "b", area := "B", external := "" },
     { id := some "c", area := "C", external := "" }] 2 (by decide)
    (fun _ => BulkData.top_falsy)).1

/-- C4: if the server fails (transport error) on any chunk of the bulk
fetch, the whole fetch returns the empty list, discarding the results
of previously successful chunks. -/
theorem bulk_fetch_abort_on_error (server : List BodyItem → Option BulkData)
    (devices_info : List DeviceInfo) (B : Nat)
    (h : ∃ g ∈ chunks (collectIds devices_info) B, server (mkBody g) = Option.none) :
    (get_device_statuses server devices_info B).1 = [] := by
  cases hids : collectIds devices_info with
  | nil =>
    rcases h with ⟨g, hg, _⟩
    rw [hids] at hg
    simp [chunks, chunksAux] at hg
  | cons i ids =>
    rw [hids] at h
    simp only [get_device_statuses, hids, List.isEmpty_cons, Bool.false_eq_true, if_false]
    exact runBulkFetch_err server (chunks (i :: ids) B) [] h

/-- Witness for C4: one device id, a server failing on the only chunk
(after a successful fetch would have been possible). -/
theorem bulk_fetch_abort_on_error_witness :
    (get_device_statuses (fun _ => Option.none)
        [{ id := some "a", area := "A", external := "" }] 50).1 = [] :=
  bulk_fetch_abort_on_error (fun _ => Option.none)
    [{ id := some "a", area := "A", external := "" }] 50 (by decide)

/-- C6: a status entry from which no device id can be extracted is
silently skipped: it alone produces zero publish calls, and its
presence in a batch does not disturb the publishes of the other
entries. -/
theorem record_without_id_skipped (e : StatusEntry) (pre post : List StatusEntry)
    (h : extractId e = Option.none) :
    publish_statuses_to_mqtt [e] = []
    ∧ publish_statuses_to_mqtt (pre ++ e :: post)
        = publish_statuses_to_mqtt pre ++ publish_statuses_to_mqtt post := by
  constructor
  · simp [publish_statuses_to_mqtt, List.filterMap, h]
  · simp [publish_statuses_to_mqtt, List.filterMap_append, List.filterMap_cons, h]

/-- Witness for C6: an entry with empty `deviceid` and no other id key,
between two publishable entries. -/
theorem record_without_id_skipped_witness :
    extractId ⟨some "", Option.none, Option.none, Option.none, Option.none, Option.none,
        Option.none⟩ = Option.none
    ∧ publish_statuses_to_mqtt
        [⟨some "", Option.none, Option.none, Option.none, Option.none, Option.none,
          Option.none⟩] = [] :=
  ⟨by decide,
    (record_without_id_skipped
      ⟨some "", Option.none, Option.none, Option.none, Option.none, Option.none, Option.none⟩
      [] [] (by decide)).1⟩

/-- C7: scenario C — the bulk status entry with `deviceid = "d1"`,
`isconnected = true`, `lastValue = 5`, `usage24hrs = 12` and the given
timestamp is published to topic `Astellas/Statuses/d1` with the field
remap `deviceid→device_id`, `isconnected→is_connected`,
`lastValue→last_value`, `usage24hrs→usage_daily`,
`lastTimestamp→last_timestamp`; and in general every entry with an
extractable id is published under exactly that remap. -/
theorem bulk_publish_payload_remap :
    publish_statuses_to_mqtt
        [⟨some "d1", Option.none, Option.none, some (JVal.bool true), some (JVal.num 5),
          some (JVal.num 12), some (JVal.str "2024-01-01T00:00:00Z")⟩]
      = [("Astellas/Statuses/d1",
          ⟨"d1", JVal.bool true, JVal.num 5, JVal.num 12,
            JVal.str "2024-01-01T00:00:00Z"⟩)]
    ∧ (∀ (e : StatusEntry) (did : String), extractId e = some did →
        publish_statuses_to_mqtt [e]
          = [(statusesTopic did,
              ⟨did, (e.isconnected).getD JVal.null, (e.lastValue).getD JVal.null,
                (e.usage24hrs).getD JVal.null, (e.lastTimestamp).getD JVal.null⟩)]) := by
  constructor
  · decide
  · intro e did h
    simp [publish_statuses_to_mqtt, List.filterMap, h]

/-- Witness for C7's general remap conjunct, at an entry whose id comes
from the fallback `device_id` key. -/
theorem bulk_publish_payload_remap_witness :
    publish_statuses_to_mqtt
        [⟨Option.none, some "x", Option.none, Option.none, Option.none, Option.none,
          Option.none⟩]
      = [(statusesTopic "x", ⟨"x", JVal.null, JVal.null, JVal.null, JVal.null⟩)] :=
  bulk_publish_payload_remap.2
    ⟨Option.none, some "x", Option.none, Option.none, Option.none, Option.none, Option.none⟩
    "x" (by decide)

/-- C8: topic derivation is a deterministic pure function of
`(mode, deviceId, area, externalId)`; the windowed topic substitutes
`"unknown"` for an empty external id (scenario D yields
`Astellas/Lab1/unknown`), and both publishers' topic expressions agree
with the derivation function. -/
theorem topic_derivation_deterministic
    (m m' : FetchMode) (d d' a a' x x' : String)
    (h : (m, d, a, x) = (m', d', a', x')) :
    deriveTopic m d a x = deriveTopic m' d' a' x'
    ∧ deriveTopic FetchMode.windowed d "Lab1" "" = "Astellas/Lab1/unknown"
    ∧ (∀ area external, windowedTopic area external
        = deriveTopic FetchMode.windowed d area external)
    ∧ (∀ device_id area external, statusesTopic device_id
        = deriveTopic FetchMode.bulk device_id area external) := by
  simp only [Prod.mk.injEq] at h
  obtain ⟨rfl, rfl, rfl, rfl⟩ := h
  exact ⟨rfl, rfl, fun _ _ => rfl, fun _ _ _ => rfl⟩

/-- Witness for C8: scenario D at concrete inputs. -/
theorem topic_derivation_deterministic_witness :
    deriveTopic FetchMode.windowed "d1" "Lab1" "" = "Astellas/Lab1/unknown" :=
  (topic_derivation_deterministic FetchMode.windowed FetchMode.windowed
    "d1" "d1" "Lab1" "Lab1" "" "" rfl).2.1

/-- C9 (amended): for every *non-empty* requested organization name, the
resolver stores the id of the first entry whose stripped name equals
the stripped requested name (case-sensitively) and stops there; no
match leaves the stored id unset, and device discovery with an unset
organization id refuses to run (zero page requests, catalog
unchanged). -/
theorem org_resolution_first_match (n : String) (hn : n ≠ "") :
    (∀ orgs : List Org,
      get_organizations (some n) orgs Option.none
        = (orgs.find? (fun o => pyStrip (o.name.getD "") == pyStrip n)).bind Org.id)
    ∧ (∀ pages page_size fuel devices_info,
        get_devices Option.none pages page_size fuel devices_info
          = some (devices_info, 0)) := by
  constructor
  · intro orgs
    induction orgs with
    | nil => rfl
    | cons o rest ih =>
      have htruthy : pyTruthyOpt (some n) = true := by
        simp [pyTruthyOpt, pyTruthyStr, hn]
      cases hmatch : (pyStrip (o.name.getD "") == pyStrip n) with
      | true =>
        simp [get_organizations, List.find?, htruthy, hmatch]
      | false =>
        simp [get_organizations, List.find?, htruthy, hmatch, ih]
  · intro pages page_size fuel devices_info
    rfl

/-- Witness for C9's amended statement, at the name `"Gallarus"` against
a two-entry organization list (scenario A shape). -/
theorem org_resolution_first_match_witness :
    get_organizations (some "Gallarus")
        [{ name := some "Other", id := some "o0" },
         { name := some " Gallarus ", id := some "org1" }] Option.none
      = ([{ name := some "Other", id := some "o0" },
          { name := some " Gallarus ", id := some "org1" }].find?
          (fun o => pyStrip (o.name.getD "") == pyStrip "Gallarus")).bind Org.id :=
  (org_resolution_first_match "Gallarus" (by decide)).1
    [{ name := some "Other", id := some "o0" },
     { name := some " Gallarus ", id := some "org1" }]

/-- C9 counterexample: with the requested name `""` the claim as stated
predicts that the id of an entry with (trimmed) name `""` is stored;
the code's truthiness guard makes it store nothing. -/
theorem org_resolution_empty_name_cex :
    pyStrip ((Org.mk (some "") (some "org1")).name.getD "")
        = pyStrip ((some "" : Option String).getD "")
    ∧ get_organizations (some "") [Org.mk (some "") (some "org1")] Option.none
        = Option.none := by
  constructor
  · rfl
  · decide

/-- C10: `login` unconditionally overwrites the stored credentials with
the response's fields, and in particular a response with an
`AccessToken` but no `MachineId` makes `login` return the failure value
`None` while the stored access token has already been changed — login
failure is not atomic. -/
theorem login_overwrites_on_failure :
    (∀ data st, (login data st).2
        = { access_token := data.accessToken, machine_id := data.machineId })
    ∧ login ⟨some "t", Option.none⟩ ⟨Option.none, Option.none⟩
        = (Option.none, ⟨some "t", Option.none⟩) := by
  constructor
  · intro data st
    simp only [login]
    split
    · rfl
    · rfl
  · decide

/-- C5: the pagination loop stops after the current request when the
server-reported integer page count is reached, when the page count is
omitted and the returned page is smaller than the page size, or when
the returned page is empty; against an honest paged server over a
device list `L` (whether it reports the consistent page count or omits
it) it issues at most `⌈L.length/pageSize⌉ + 1` page requests; and it
terminates (never loops forever) whenever the server never returns a
page count and its pages shrink to an empty page. -/
theorem pagination_stops_and_terminates :
    (∀ pages ps fuel cur acc, (pages cur).results = ResultsField.ok ([] : List Device) →
      getDevicesLoop pages ps (fuel + 1) cur acc = some (acc, 1))
    ∧ (∀ (pages : Nat → DevicesPage) (ps fuel cur : Nat) (acc : List DeviceInfo)
          (d : Device) (ds : List Device) (pc : Int),
        (pages cur).results = ResultsField.ok (d :: ds) →
        (pages cur).pageCount = PageCountField.int pc → (cur : Int) ≥ pc →
        getDevicesLoop pages ps (fuel + 1) cur acc
          = some (acc ++ processPage (d :: ds), 1))
    ∧ (∀ pages ps fuel cur acc d ds, (pages cur).results = ResultsField.ok (d :: ds) →
        (pages cur).pageCount = PageCountField.null → (d :: ds).length < ps →
        getDevicesLoop pages ps (fuel + 1) cur acc
          = some (acc ++ processPage (d :: ds), 1))
    ∧ (∀ (L : List Device) (ps : Nat) (pcf : PageCountField), 0 < ps →
        (pcf = PageCountField.int (ceilNat L.length ps : Int)
          ∨ pcf = PageCountField.null) →
        ∀ fuel, ceilNat L.length ps + 1 ≤ fuel →
        ∃ res n, getDevicesLoop (honestPages L ps pcf) ps fuel 1 [] = some (res, n)
          ∧ n ≤ ceilNat L.length ps + 1)
    ∧ (∀ pages ps k acc, 0 < ps →
        (∀ i, (pages i).pageCount = PageCountField.null) →
        1 ≤ k → (pages k).results = ResultsField.ok ([] : List Device) →
        ∃ res n, getDevicesLoop pages ps k 1 acc = some (res, n)) := by
  refine ⟨?_, ?_, ?_, ?_, ?_⟩
  · intro pages ps fuel cur acc hres
    simp [getDevicesLoop, hres]
  · intro pages ps fuel cur acc d ds pc hres hpc hge
    simp only [getDevicesLoop, hres, hpc]
    rw [if_pos hge]
  · intro pages ps fuel cur acc d ds hres hpc hsmall
    simp only [getDevicesLoop, hres, hpc]
    rw [if_pos hsmall]
  · intro L ps pcf hps hpcf fuel hfuel
    rcases hpcf with hpcf | hpcf
    · subst hpcf
      have hp : ∀ i, (honestPages L ps (PageCountField.int (ceilNat L.length ps : Int)) i).pageCount
          = PageCountField.int ((ceilNat L.length ps : Nat) : Int) := fun i => rfl
      obtain ⟨res, n, heq, hn⟩ :=
        loop_int_bound (honestPages L ps (PageCountField.int (ceilNat L.length ps : Int)))
          ps (ceilNat L.length ps) hp fuel 1 [] (by omega)
      exact ⟨res, n, heq, by omega⟩
    · subst hpcf
      have hp : ∀ j, honestPages L ps PageCountField.null (1 + j)
          = { results := ResultsField.ok ((L.drop (j * ps)).take ps),
              pageCount := PageCountField.null } := by
        intro j
        unfold honestPages
        rw [show 1 + j - 1 = j from by omega]
      have hmono : L.length / ps ≤ ceilNat L.length ps :=
        Nat.div_le_div_right (by omega)
      obtain ⟨res, n, heq, hn⟩ :=
        loop_null_bound ps hps (honestPages L ps PageCountField.null) fuel L 1 [] hp
          (by omega)
      exact ⟨res, n, heq, by omega⟩
  · intro pages ps k acc hps hnull hk hempty
    exact loop_term_small ps pages hnull k
      (Or.inr ⟨[], hempty, by simpa using hps⟩) k 1 acc hk (by omega)

/-- Witness for C5's request-count bound, at an honest server over the
empty device list. -/
theorem pagination_stops_and_terminates_witness :
    ∃ res n,
      getDevicesLoop (honestPages [] 50 PageCountField.null) 50 1 1 [] = some (res, n)
        ∧ n ≤ ceilNat ([] : List Device).length 50 + 1 :=
  pagination_stops_and_terminates.2.2.2.1 [] 50 PageCountField.null (by decide)
    (Or.inr rfl) 1 (by decide)

end AstellasSensor
